import Mathlib

/-!
# Verification of the chess engine core (`engine.py`)

Shallow embedding of the repository's `engine.py`.  The engine delegates the
rules of chess (move generation, checks, pushes) to the external `python-chess`
library; those operations are modelled here by an executable implementation of
standard chess rules that mirrors `python-chess` semantics (in particular: on a
board without a king for the side to move, every pseudo-legal move is legal and
the side is never "in check", exactly as `python-chess` behaves).

The engine's own functions (`Board.evaluate`, `_mirror`, `_mvv_lva`,
`_ordered_moves`, `_quiesce`, `_alphabeta`, `search_best_move`, `make_move`,
`is_in_check`, `_to_ui_tuple`) are transcribed from the source.  Python's
global mutable tables (`TT`, `KILLERS`, `HIST`) become an explicit
`SearchState` threaded through the search.  The wall-clock deadline check
(`time.time() >= deadline` raising `TimeoutError`) is external nondeterminism;
it is modelled as never firing, which is the semantics all the claims address.
General recursion in `_quiesce`/`_alphabeta` (which Python runs unboundedly)
is made structural with an explicit fuel parameter; every concrete run below
uses ample fuel, and universal statements are phrased at `fuel + 1` so the
body executes exactly as in the source.
-/

namespace Engine

/-- Piece types, as in `python-chess` (`chess.PAWN` … `chess.KING`). -/
inductive PType where
  | pawn | knight | bishop | rook | queen | king
deriving DecidableEq, Repr

/-- A piece: colour (`true` = White, matching `chess.WHITE = True`) and type. -/
structure Piece where
  color : Bool
  ptype : PType
deriving DecidableEq, Repr

/-- Castling rights (white king-side, white queen-side, black king-side, black
queen-side). -/
structure CastlingRights where
  wk : Bool
  wq : Bool
  bk : Bool
  bq : Bool
deriving DecidableEq, Repr

/-- The position: 64 squares (`a1 = 0`, `h1 = 7`, …, `h8 = 63`, as in
`python-chess`), side to move, castling rights and the en-passant target
square.  Halfmove/fullmove counters play no role in any claim and are not part
of `python-chess`'s transposition key, so they are omitted. -/
structure Board where
  squares : List (Option Piece)
  turn : Bool
  castling : CastlingRights
  ep : Option Nat
deriving DecidableEq, Repr

/-- A move: origin square, destination square, optional promotion piece.
`chess.Move.null()` is `⟨0, 0, none⟩`. -/
structure Move where
  fromSq : Nat
  toSq : Nat
  promotion : Option PType
deriving DecidableEq, Repr

def nullMove : Move := ⟨0, 0, none⟩

def pieceAt (bd : Board) (sq : Nat) : Option Piece := bd.squares.getD sq none

/-- `INF = 10 ** 9` from the source. -/
def INF : Int := 10 ^ 9

/-- `ASPIRATION_WINDOW = 50` from the source. -/
def ASPIRATION_WINDOW : Int := 50

/-- `PIECE_VALUES` from the source. -/
def PIECE_VALUES : PType → Int
  | .pawn => 100
  | .knight => 320
  | .bishop => 330
  | .rook => 500
  | .queen => 900
  | .king => 0

/-- `_mirror(idx) = idx ^ 56` from the source. -/
def _mirror (idx : Nat) : Nat := idx ^^^ 56

/-- The `PST` piece-square tables, transcribed verbatim from the source
(index 0 = square a1). -/
def PST : PType → List Int
  | .pawn =>
      [ 0,  5,  5,-10,-10,  5,  5,  0,
        0, 10, -5,  0,  0, -5, 10,  0,
        0, 10, 10, 20, 20, 10, 10,  0,
        5, 15, 15, 25, 25, 15, 15,  5,
       10, 20, 20, 30, 30, 20, 20, 10,
       20, 30, 30, 40, 40, 30, 30, 20,
        0,  0,  0,  0,  0,  0,  0,  0,
        0,  0,  0,  0,  0,  0,  0,  0]
  | .knight =>
      [-50,-40,-30,-30,-30,-30,-40,-50,
       -40,-20,  0,  0,  0,  0,-20,-40,
       -30,  5, 10, 15, 15, 10,  5,-30,
       -30,  0, 15, 20, 20, 15,  0,-30,
       -30,  5, 15, 20, 20, 15,  5,-30,
       -30,  0, 10, 15, 15, 10,  0,-30,
       -40,-20,  0,  0,  0,  0,-20,-40,
       -50,-40,-30,-30,-30,-30,-40,-50]
  | .bishop =>
      [-20,-10,-10,-10,-10,-10,-10,-20,
       -10,  5,  0,  0,  0,  0,  5,-10,
       -10, 10, 10, 10, 10, 10, 10,-10,
       -10,  0, 10, 15, 15, 10,  0,-10,
       -10,  5, 10, 15, 15, 10,  5,-10,
       -10, 10, 10, 10, 10, 10, 10,-10,
       -10,  5,  0,  0,  0,  0,  5,-10,
       -20,-10,-10,-10,-10,-10,-10,-20]
  | .rook =>
      [  0,  0,  5, 10, 10,  5,  0,  0,
        -5,  0,  0,  0,  0,  0,  0, -5,
        -5,  0,  0,  0,  0,  0,  0, -5,
        -5,  0,  0,  5,  5,  0,  0, -5,
        -5,  0,  0,  5,  5,  0,  0, -5,
        -5,  0,  0,  0,  0,  0,  0, -5,
         5, 10, 10, 10, 10, 10, 10,  5,
         0,  0,  0,  0,  0,  0,  0,  0]
  | .queen =>
      [-20,-10,-10, -5, -5,-10,-10,-20,
       -10,  0,  0,  0,  0,  0,  0,-10,
       -10,  0,  5,  5,  5,  5,  0,-10,
        -5,  0,  5,  5,  5,  5,  0, -5,
         0,  0,  5,  5,  5,  5,  0, -5,
       -10,  5,  5,  5,  5,  5,  0,-10,
       -10,  0,  5,  0,  0,  0,  0,-10,
       -20,-10,-10, -5, -5,-10,-10,-20]
  | .king =>
      [-30,-40,-40,-50,-50,-40,-40,-30,
       -30,-40,-40,-50,-50,-40,-40,-30,
       -30,-40,-40,-50,-50,-40,-40,-30,
       -30,-40,-40,-50,-50,-40,-40,-30,
       -20,-30,-30,-40,-40,-30,-30,-20,
       -10,-20,-20,-20,-20,-20,-20,-10,
        20, 20,  0,  0,  0,  0, 20, 20,
        20, 30, 10,  0,  0, 10, 30, 20]

/-- `python-chess` `piece_map()`: the occupied squares with their pieces. -/
def pieceMap (bd : Board) : List (Nat × Piece) :=
  (List.range 64).filterMap fun sq => (pieceAt bd sq).map fun p => (sq, p)

/-- `Board.evaluate` from the source: material + piece-square bonus, summed
over the piece map, White-positive.  (There is no mobility term in the code.) -/
def Board.evaluate (bd : Board) : Int :=
  (pieceMap bd).foldl
    (fun score x =>
      let val := PIECE_VALUES x.2.ptype +
        (PST x.2.ptype).getD (if x.2.color then x.1 else _mirror x.1) 0
      score + (if x.2.color then val else -val))
    0

/-! ## Rules model (the external `python-chess` library)

Standard chess rules, executable.  Squares are `rank * 8 + file` with
`a1 = 0`.  As in `python-chess`: if the side to move has no king, it is never
in check and every pseudo-legal move is legal. -/

def fileOf (sq : Nat) : Int := (sq % 8 : Nat)

def rankOf (sq : Nat) : Int := (sq / 8 : Nat)

def onBoard (f r : Int) : Bool := 0 ≤ f && f < 8 && 0 ≤ r && r < 8

def sqOf (f r : Int) : Nat := (r * 8 + f).toNat

/-- Squares reachable along one ray direction, stopping at (and including) the
first occupied square. -/
def rayAtt (bd : Board) (df dr : Int) : Nat → Int → Int → List Nat
  | 0, _, _ => []
  | steps + 1, f, r =>
    let f1 := f + df
    let r1 := r + dr
    if onBoard f1 r1 then
      let t := sqOf f1 r1
      match pieceAt bd t with
      | none => t :: rayAtt bd df dr steps f1 r1
      | some _ => [t]
    else []

def knightOffsets : List (Int × Int) :=
  [(1, 2), (2, 1), (2, -1), (1, -2), (-1, -2), (-2, -1), (-2, 1), (-1, 2)]

def kingOffsets : List (Int × Int) :=
  [(1, 1), (1, 0), (1, -1), (0, 1), (0, -1), (-1, 1), (-1, 0), (-1, -1)]

def diagDirs : List (Int × Int) := [(1, 1), (1, -1), (-1, 1), (-1, -1)]

def lineDirs : List (Int × Int) := [(1, 0), (-1, 0), (0, 1), (0, -1)]

def stepTargets (sq : Nat) (offsets : List (Int × Int)) : List Nat :=
  offsets.foldr
    (fun o acc =>
      let f1 := fileOf sq + o.1
      let r1 := rankOf sq + o.2
      if onBoard f1 r1 then sqOf f1 r1 :: acc else acc)
    []

def slideTargetsAll (bd : Board) (sq : Nat) (dirs : List (Int × Int)) : List Nat :=
  dirs.foldr (fun d acc => rayAtt bd d.1 d.2 7 (fileOf sq) (rankOf sq) ++ acc) []

/-- All squares attacked by the piece `p` standing on `sq` (occupancy of the
target square is irrelevant for attack, as usual). -/
def attacksFrom (bd : Board) (sq : Nat) (p : Piece) : List Nat :=
  match p.ptype with
  | .pawn =>
    let dr : Int := if p.color then 1 else -1
    (([(-1 : Int), 1]).foldr
      (fun df acc =>
        let f1 := fileOf sq + df
        let r1 := rankOf sq + dr
        if onBoard f1 r1 then sqOf f1 r1 :: acc else acc)
      [])
  | .knight => stepTargets sq knightOffsets
  | .king => stepTargets sq kingOffsets
  | .bishop => slideTargetsAll bd sq diagDirs
  | .rook => slideTargetsAll bd sq lineDirs
  | .queen => slideTargetsAll bd sq (diagDirs ++ lineDirs)

/-- Is square `t` attacked by any piece of colour `c`? -/
def isAttackedBy (bd : Board) (c : Bool) (t : Nat) : Bool :=
  (List.range 64).any fun sq =>
    match pieceAt bd sq with
    | some p => p.color = c && t ∈ attacksFrom bd sq p
    | none => false

def kingSq (bd : Board) (c : Bool) : Option Nat :=
  (List.range 64).find? fun sq => pieceAt bd sq = some ⟨c, PType.king⟩

/-- Is colour `c`'s king attacked?  (No king → `false`, as in `python-chess`.) -/
def sideInCheck (bd : Board) (c : Bool) : Bool :=
  match kingSq bd c with
  | some k => isAttackedBy bd (!c) k
  | none => false

/-- `python-chess` `Board.is_check()`: the side to move is in check. -/
def isCheck (bd : Board) : Bool := sideInCheck bd bd.turn

/-- `python-chess` `Board.is_en_passant(move)`. -/
def isEnPassantMove (bd : Board) (m : Move) : Bool :=
  decide (bd.ep = some m.toSq)
  && (match pieceAt bd m.fromSq with
      | some p => decide (p.ptype = PType.pawn)
      | none => false)
  && decide (m.toSq + 7 = m.fromSq ∨ m.fromSq + 7 = m.toSq
      ∨ m.toSq + 9 = m.fromSq ∨ m.fromSq + 9 = m.toSq)
  && decide (pieceAt bd m.toSq = none)

/-- Rights updates on a push: moving the king clears both own rights; moving
from or capturing onto a rook home square clears that right. -/
def updateRights (cr : CastlingRights) (p : Piece) (m : Move) : CastlingRights :=
  let c1 := if p.ptype = PType.king then
      (if p.color then { cr with wk := false, wq := false }
       else { cr with bk := false, bq := false }) else cr
  let c2 := if m.fromSq = 0 ∨ m.toSq = 0 then { c1 with wq := false } else c1
  let c3 := if m.fromSq = 7 ∨ m.toSq = 7 then { c2 with wk := false } else c2
  let c4 := if m.fromSq = 56 ∨ m.toSq = 56 then { c3 with bq := false } else c3
  if m.fromSq = 63 ∨ m.toSq = 63 then { c4 with bk := false } else c4

/-- `python-chess` `Board.push(move)`: apply a move (null move just flips the
turn and clears the en-passant square). -/
def push (bd : Board) (m : Move) : Board :=
  if m = nullMove then { bd with turn := !bd.turn, ep := none }
  else
    match pieceAt bd m.fromSq with
    | none => { bd with turn := !bd.turn, ep := none }
    | some p =>
      let ep := isEnPassantMove bd m
      let s1 := bd.squares.set m.fromSq none
      let s2 := if ep then s1.set (if p.color then m.toSq - 8 else m.toSq + 8) none else s1
      let placed : Piece := match m.promotion with
        | some pt => ⟨p.color, pt⟩
        | none => p
      let s3 := s2.set m.toSq (some placed)
      let s4 :=
        if p.ptype = PType.king ∧ m.toSq = m.fromSq + 2 then
          (s3.set (m.fromSq + 3) none).set (m.fromSq + 1) (some ⟨p.color, PType.rook⟩)
        else if p.ptype = PType.king ∧ m.fromSq = m.toSq + 2 then
          (s3.set (m.fromSq - 4) none).set (m.fromSq - 1) (some ⟨p.color, PType.rook⟩)
        else s3
      let newEp :=
        if p.ptype = PType.pawn ∧ m.toSq = m.fromSq + 16 then some (m.fromSq + 8)
        else if p.ptype = PType.pawn ∧ m.fromSq = m.toSq + 16 then some (m.toSq + 8)
        else none
      { squares := s4, turn := !bd.turn, castling := updateRights bd.castling p m,
        ep := newEp }

def clone (bd : Board) : Board := bd

/-- Pawn pseudo-legal moves from `sq` for colour `c`. -/
def pawnMoves (bd : Board) (sq : Nat) (c : Bool) : List Move :=
  let f := fileOf sq
  let r := rankOf sq
  let dir : Int := if c then 1 else -1
  let promoRank : Int := if c then 7 else 0
  let startRank : Int := if c then 1 else 6
  let mkTo : Nat → List Move := fun t =>
    if rankOf t = promoRank then
      [⟨sq, t, some .queen⟩, ⟨sq, t, some .rook⟩, ⟨sq, t, some .bishop⟩, ⟨sq, t, some .knight⟩]
    else [⟨sq, t, none⟩]
  let push1 :=
    if onBoard f (r + dir) ∧ pieceAt bd (sqOf f (r + dir)) = none then
      mkTo (sqOf f (r + dir)) else []
  let push2 :=
    if r = startRank ∧ pieceAt bd (sqOf f (r + dir)) = none
        ∧ pieceAt bd (sqOf f (r + 2 * dir)) = none then
      [⟨sq, sqOf f (r + 2 * dir), none⟩] else []
  let capDir : Int → List Move := fun df =>
    let f1 := f + df
    let r1 := r + dir
    if onBoard f1 r1 then
      let t := sqOf f1 r1
      match pieceAt bd t with
      | some q => if q.color = c then [] else mkTo t
      | none => if bd.ep = some t then [⟨sq, t, none⟩] else []
    else []
  push1 ++ push2 ++ capDir (-1) ++ capDir 1

def stepMoves (bd : Board) (sq : Nat) (c : Bool) (offsets : List (Int × Int)) : List Move :=
  (stepTargets sq offsets).foldr
    (fun t acc =>
      match pieceAt bd t with
      | some q => if q.color = c then acc else ⟨sq, t, none⟩ :: acc
      | none => ⟨sq, t, none⟩ :: acc)
    []

def slideMoves (bd : Board) (sq : Nat) (c : Bool) (dirs : List (Int × Int)) : List Move :=
  (slideTargetsAll bd sq dirs).foldr
    (fun t acc =>
      match pieceAt bd t with
      | some q => if q.color = c then acc else ⟨sq, t, none⟩ :: acc
      | none => ⟨sq, t, none⟩ :: acc)
    []

def pieceMoves (bd : Board) (sq : Nat) (p : Piece) : List Move :=
  match p.ptype with
  | .pawn => pawnMoves bd sq p.color
  | .knight => stepMoves bd sq p.color knightOffsets
  | .king => stepMoves bd sq p.color kingOffsets
  | .bishop => slideMoves bd sq p.color diagDirs
  | .rook => slideMoves bd sq p.color lineDirs
  | .queen => slideMoves bd sq p.color (diagDirs ++ lineDirs)

/-- Castling moves (king steps two files), with the usual guards: the right is
present, the king and rook stand on their home squares, the path is empty, the
king is not in check and does not pass through or land on an attacked square. -/
def castlingMoves (bd : Board) (c : Bool) : List Move :=
  let base : Nat := if c then 0 else 56
  let e := base + 4
  let kHere := pieceAt bd e = some ⟨c, PType.king⟩
  let ks :=
    if (if c then bd.castling.wk else bd.castling.bk) ∧ kHere
        ∧ pieceAt bd (base + 7) = some ⟨c, PType.rook⟩
        ∧ pieceAt bd (base + 5) = none ∧ pieceAt bd (base + 6) = none
        ∧ isAttackedBy bd (!c) e = false
        ∧ isAttackedBy bd (!c) (base + 5) = false
        ∧ isAttackedBy bd (!c) (base + 6) = false then
      [(⟨e, base + 6, none⟩ : Move)] else []
  let qs :=
    if (if c then bd.castling.wq else bd.castling.bq) ∧ kHere
        ∧ pieceAt bd base = some ⟨c, PType.rook⟩
        ∧ pieceAt bd (base + 1) = none ∧ pieceAt bd (base + 2) = none
        ∧ pieceAt bd (base + 3) = none
        ∧ isAttackedBy bd (!c) e = false
        ∧ isAttackedBy bd (!c) (base + 3) = false
        ∧ isAttackedBy bd (!c) (base + 2) = false then
      [(⟨e, base + 2, none⟩ : Move)] else []
  ks ++ qs

def pseudoLegal (bd : Board) : List Move :=
  ((List.range 64).map fun sq =>
    match pieceAt bd sq with
    | some p => if p.color = bd.turn then pieceMoves bd sq p else []
    | none => []).flatten ++ castlingMoves bd bd.turn

/-- After the move, is the mover's own king attacked?  (`python-chess`
`is_into_check`; with no own king this is `false`.) -/
def intoCheck (bd : Board) (m : Move) : Bool := sideInCheck (push bd m) bd.turn

/-- `python-chess` `Board.legal_moves`. -/
def legalMoves (bd : Board) : List Move :=
  (pseudoLegal bd).filter fun m => !intoCheck bd m

/-- `python-chess` `Board.is_capture(move)`: the target square holds an enemy
piece, or the move is an en-passant capture. -/
def isCapture (bd : Board) (m : Move) : Bool :=
  (match pieceAt bd m.toSq with
   | some q => q.color ≠ bd.turn
   | none => false)
  || isEnPassantMove bd m

/-- `python-chess` `Board.gives_check(move)`: after pushing, the new side to
move is in check. -/
def givesCheck (bd : Board) (m : Move) : Bool := isCheck (push bd m)

/-- `python-chess` `Board.has_legal_en_passant()`. -/
def hasLegalEnPassant (bd : Board) : Bool :=
  bd.ep.isSome && (legalMoves bd).any fun m => isEnPassantMove bd m

/-- `Board.zobrist()` from the source returns `python-chess`'s transposition
key, an (injective, modulo astronomically unlikely collisions) hash of the
position.  It is modelled by the position itself. -/
def zobrist (bd : Board) : Board := bd

/-! ## Search state (the globals `TT`, `KILLERS`, `HIST`)

`KILLERS` and `HIST` are keyed by `move.uci()` in the source; UCI strings are
in bijection with moves, so the model keys them by the move itself. -/

/-- `TT_EX, TT_LO, TT_UP = 0, 1, 2` from the source. -/
def TT_EX : Nat := 0

def TT_LO : Nat := 1

def TT_UP : Nat := 2

/-- A transposition-table entry `(depth, flag, score, best_move)`. -/
structure TTEntry where
  depth : Nat
  flag : Nat
  score : Int
  move : Option Move
deriving DecidableEq, Repr

/-- The global search tables: `TT` (kept across calls), `KILLERS` and `HIST`
(`defaultdict`s, cleared per top-level call). -/
structure SearchState where
  tt : List (Board × TTEntry)
  killers : Nat → List Move
  hist : Move → Nat

/-- A fresh state: empty `TT`, empty defaultdicts. -/
def emptyState : SearchState := ⟨[], fun _ => [], fun _ => 0⟩

/-- `TT.get(key)` (dict lookup; `ttPut` conses, so the first hit is the most
recent binding, matching dict overwrite semantics). -/
def ttGet : List (Board × TTEntry) → Board → Option TTEntry
  | [], _ => none
  | (k, e) :: rest, key => if k = key then some e else ttGet rest key

/-- `TT[key] = entry` (dict assignment). -/
def ttPut (tt : List (Board × TTEntry)) (key : Board) (e : TTEntry) :
    List (Board × TTEntry) :=
  (key, e) :: tt

/-- `_MVV` from the source. -/
def _MVV : PType → Int
  | .pawn => 1
  | .knight => 2
  | .bishop => 3
  | .rook => 4
  | .queen => 5
  | .king => 6

/-- `_mvv_lva(move, bd)` from the source: MVV-LVA ordering score. -/
def _mvv_lva (m : Move) (bd : Board) : Int :=
  let victim : Option PType :=
    if isEnPassantMove bd m then some .pawn
    else match pieceAt bd m.toSq with
      | some p => some p.ptype
      | none => none
  match victim with
  | none => 0
  | some v =>
    match pieceAt bd m.fromSq with
    | some a => _MVV v * 10 - _MVV a.ptype
    | none => 0

/-- The sort key of `_ordered_moves`:
`(m == tt_move, _mvv_lva(m, bd), m.uci() in KILLERS[depth], HIST[m.uci()])`. -/
def orderKey (bd : Board) (depth : Nat) (ttMove : Option Move)
    (st : SearchState) (m : Move) : Bool × Int × Bool × Nat :=
  (decide (ttMove = some m), _mvv_lva m bd, decide (m ∈ st.killers depth), st.hist m)

/-- Strict lexicographic order on sort keys (`False < True` for booleans, as
in Python). -/
def keyLt (a b : Bool × Int × Bool × Nat) : Bool :=
  (!a.1 && b.1)
  || (a.1 = b.1
      && (decide (a.2.1 < b.2.1)
          || (decide (a.2.1 = b.2.1)
              && ((!a.2.2.1 && b.2.2.1)
                  || (a.2.2.1 = b.2.2.1 && decide (a.2.2.2 < b.2.2.2))))))

/-- Stable insertion for a descending sort: `m` passes over strictly greater
keys and stops before the first key `≤` its own, so that among equal keys the
earlier element of the original list stays first — the behaviour of Python's
stable `list.sort(key=…, reverse=True)`. -/
def insertDesc (k : Move → Bool × Int × Bool × Nat) (m : Move) :
    List Move → List Move
  | [] => [m]
  | y :: ys => if keyLt (k m) (k y) then y :: insertDesc k m ys else m :: y :: ys

def sortDesc (k : Move → Bool × Int × Bool × Nat) : List Move → List Move
  | [] => []
  | x :: xs => insertDesc k x (sortDesc k xs)

/-- `_ordered_moves(bd, depth, tt_move)` from the source: the legal moves,
stably sorted in descending key order. -/
def _ordered_moves (bd : Board) (depth : Nat) (ttMove : Option Move)
    (st : SearchState) : List Move :=
  sortDesc (orderKey bd depth ttMove st) (legalMoves bd)

/-! ## Quiescence search (`_quiesce`) -/

/-- The capture/check loop of `_quiesce`, abstracted over the recursive call
(the fuel encoding of the source's general recursion). -/
def _qLoop (recur : Board → Int → Int → Int) (bd : Board) :
    List Move → Int → Int → Int
  | [], alpha, _ => alpha
  | m :: rest, alpha, beta =>
    if isCapture bd m || givesCheck bd m then
      let child := push (clone bd) m
      let score := -recur child (-beta) (-alpha)
      if beta ≤ score then beta
      else _qLoop recur bd rest (if alpha < score then score else alpha) beta
    else _qLoop recur bd rest alpha beta

/-- `_quiesce(bd, alpha, beta, deadline)` from the source.  Note: the code
computes `stand = bd.evaluate()` with no side-to-move sign.  Fuel exhaustion
returns `alpha` (never reached in the concrete runs below). -/
def _quiesce : Nat → Board → Int → Int → Int
  | 0, _, alpha, _ => alpha
  | fuel + 1, bd, alpha, beta =>
    let stand := Board.evaluate bd
    if beta ≤ stand then beta
    else
      let alpha1 := if alpha < stand then stand else alpha
      _qLoop (_quiesce fuel) bd (legalMoves bd) alpha1 beta

/-! ## Negamax alpha-beta (`_alphabeta`) -/

/-- The null-move-pruning guard from the source:
`depth >= 3 and not bd._b.is_check()` (there is no en-passant guard). -/
def nullMovePruningAttempted (bd : Board) (depth : Nat) : Bool :=
  decide (3 ≤ depth) && !isCheck bd

/-- One step of the killer update on a beta-cutoff, from the source:
`if move.uci() not in kl: kl.insert(0, move.uci()); KILLERS[depth] = kl[:2]`.
There is no quiet-move check. -/
def updateKillers (kl : List Move) (m : Move) : List Move :=
  if m ∈ kl then kl else (m :: kl).take 2

/-- The move loop of `_alphabeta` (fuel encoding: `recur` is `_alphabeta` at
the next-smaller fuel).  Returns `(best_score, best_move, alpha, state)` —
`alpha` is the loop variable the source later (incorrectly, see C2) compares
the best score against when choosing the TT flag. -/
def _abLoop (recur : Board → Nat → Int → Int → SearchState → Int × SearchState)
    (bd : Board) (depth : Nat) (beta : Int) :
    List Move → Nat → Int → Int → Option Move → SearchState →
    Int × Option Move × Int × SearchState
  | [], _, alpha, bestScore, bestMove, st => (bestScore, bestMove, alpha, st)
  | m :: rest, idx, alpha, bestScore, bestMove, st =>
    let child := push (clone bd) m
    let newDepth :=
      if 4 ≤ idx ∧ 3 ≤ depth ∧ isCheck bd = false then depth - 1 - 1 else depth - 1
    let r := recur child newDepth (-beta) (-alpha) st
    let score := -r.1
    let st1 := r.2
    let best1 := if bestScore < score then (score, some m) else (bestScore, bestMove)
    let alpha1 := if alpha < score then score else alpha
    if beta ≤ alpha1 then
      let kl := st1.killers depth
      let st2 : SearchState :=
        { st1 with killers := fun d => if d = depth then updateKillers kl m else st1.killers d }
      (best1.1, best1.2, alpha1, st2)
    else _abLoop recur bd depth beta rest (idx + 1) alpha1 best1.1 best1.2 st1

/-- The tail of `_alphabeta` after the move loop, from the source: the history
update (`if best_move and not bd._b.is_capture(best_move)`) and the TT store.
The flag comparison uses the loop's final `alpha` (`lr.2.2.1`), exactly as the
code does — not the alpha the node was called with. -/
def _finishNode (bd : Board) (key : Board) (depth : Nat) (beta : Int)
    (lr : Int × Option Move × Int × SearchState) : Int × SearchState :=
  let bestScore := lr.1
  let bestMove := lr.2.1
  let alphaF := lr.2.2.1
  let st2 := lr.2.2.2
  let st3 : SearchState := match bestMove with
    | some bm =>
      if isCapture bd bm = false then
        { st2 with hist := fun mv =>
            if mv = bm then st2.hist bm + depth * depth else st2.hist mv }
      else st2
    | none => st2
  let st4 : SearchState := match bestMove with
    | some _ =>
      let flag := if bestScore ≤ alphaF then TT_UP
        else if beta ≤ bestScore then TT_LO
        else TT_EX
      { st3 with tt := ttPut st3.tt key ⟨depth, flag, bestScore, bestMove⟩ }
    | none =>
      { st3 with tt := ttPut st3.tt key ⟨depth, TT_EX, bestScore, none⟩ }
  (bestScore, st4)

/-- `_alphabeta(bd, depth, alpha, beta, deadline)` from the source: TT probe,
leaf → quiescence, null-move pruning, ordered move loop with LMR, history
update, TT store.  Fuel exhaustion returns `alpha` (never reached below). -/
def _alphabeta : Nat → Board → Nat → Int → Int → SearchState → Int × SearchState
  | 0, _, _, alpha, _, st => (alpha, st)
  | fuel + 1, bd, depth, alpha, beta, st =>
    let key := zobrist bd
    let entry := ttGet st.tt key
    let probe : Option Int :=
      match entry with
      | some e =>
        if depth ≤ e.depth then
          if e.flag = TT_EX then some e.score
          else if e.flag = TT_LO ∧ beta ≤ e.score then some e.score
          else if e.flag = TT_UP ∧ e.score ≤ alpha then some e.score
          else none
        else none
      | none => none
    match probe with
    | some s => (s, st)
    | none =>
      if depth = 0 then (_quiesce fuel bd alpha beta, st)
      else
        let nullRes : Option Int × SearchState :=
          if nullMovePruningAttempted bd depth then
            let nullBd := push (clone bd) nullMove
            let r := _alphabeta fuel nullBd (depth - 3) (-beta) (-beta + 1) st
            (if beta ≤ -r.1 then some beta else none, r.2)
          else (none, st)
        match nullRes.1 with
        | some b => (b, nullRes.2)
        | none =>
          let st1 := nullRes.2
          let ttMove : Option Move := match entry with
            | some e => e.move
            | none => none
          let moves := _ordered_moves bd depth ttMove st1
          _finishNode bd key depth beta
            (_abLoop (_alphabeta fuel) bd depth beta moves 0 alpha (-INF) none st1)

/-! ## UI codec and `Board` methods used by the frontend -/

/-- UI move format: `((row, col), (row, col), promotion letter)`. -/
def UiMove : Type := (Nat × Nat) × (Nat × Nat) × Option Char
deriving instance DecidableEq for UiMove

def pieceChar : PType → Char
  | .pawn => 'p'
  | .knight => 'n'
  | .bishop => 'b'
  | .rook => 'r'
  | .queen => 'q'
  | .king => 'k'

/-- `_to_ui_tuple` from the source. -/
def _to_ui_tuple : Option Move → Option UiMove
  | none => none
  | some m =>
    some ((7 - m.fromSq / 8, m.fromSq % 8), (7 - m.toSq / 8, m.toSq % 8),
      m.promotion.map fun pt => (pieceChar pt).toUpper)

/-- `Board.generate_legal_moves` from the source (the argument is unused by
the code). -/
def Board.generate_legal_moves (bd : Board) (white_to_move : Bool) : List UiMove :=
  (legalMoves bd).map fun m =>
    ((7 - m.fromSq / 8, m.fromSq % 8), (7 - m.toSq / 8, m.toSq % 8),
     m.promotion.map fun pt => (pieceChar pt).toUpper)

/-- `Board.is_in_check(white)` from the source: the argument is ignored and
`self._b.is_check()` is returned. -/
def Board.is_in_check (bd : Board) (white : Bool) : Bool := isCheck bd

/-- `Board.make_move(move)` from the source.  Note the promotion handling:
`promotion=chess.QUEEN if promo else None` — any non-`None` promotion letter
is turned into a queen promotion. -/
def Board.make_move (bd : Board) (move : UiMove) : Board :=
  let frm := move.1
  let dst := move.2.1
  let promo := move.2.2
  let internal : Move :=
    ⟨(7 - frm.1) * 8 + frm.2, (7 - dst.1) * 8 + dst.2,
     if promo.isSome then some PType.queen else none⟩
  push bd internal

/-! ## Driver (`search_best_move`)

The aspiration `while True` loop is fuel-encoded; the per-move deadline logic
is dropped (deadline never expires).  Because the caller's `Board` is a Python
object the search could in principle mutate, the driver returns — besides the
move, the score and the final global state — the final value of the caller's
board object, threading every operation the source applies to it. -/

/-- The aspiration-window loop: call `_alphabeta(bd.clone(), d, alpha, beta)`,
widen on fail-low/fail-high, stop when the score is inside the window. -/
def _aspiration (abFuel : Nat) (bd : Board) (d : Nat) :
    Nat → Int → Int → SearchState → Int × SearchState
  | 0, alpha, _, st => (alpha, st)
  | fuel + 1, alpha, beta, st =>
    let r := _alphabeta abFuel (clone bd) d alpha beta st
    let score := r.1
    let st1 := r.2
    if score ≤ alpha then _aspiration abFuel bd d fuel (alpha - ASPIRATION_WINDOW) beta st1
    else if beta ≤ score then _aspiration abFuel bd d fuel alpha (beta + ASPIRATION_WINDOW) st1
    else (score, st1)

/-- The iterative-deepening loop `for d in range(1, depth + 1)`; after each
depth the root TT entry's move is recorded.  Returns
`(best_move, score, state, callerBoard)`. -/
def _idLoop (fuel : Nat) (bd : Board) :
    Nat → Nat → Int → Option Move → SearchState →
    Option Move × Int × SearchState × Board
  | 0, _, score, best, st => (best, score, st, bd)
  | rem + 1, d, score, best, st =>
    let alpha := score - ASPIRATION_WINDOW
    let beta := score + ASPIRATION_WINDOW
    let r := _aspiration fuel bd d fuel alpha beta st
    let best1 := match ttGet r.2.tt (zobrist bd) with
      | some e => e.move
      | none => best
    _idLoop fuel bd rem (d + 1) r.1 best1 r.2

/-- `search_best_move(bd, depth, side_white, time_limit)` from the source
(`side_white` is unused by the code; `time_limit` is subsumed by the
never-expiring deadline model).  Clears `KILLERS` and `HIST`, keeps `TT`,
iterates depths 1..depth with aspiration windows, and converts the final best
move to a UI tuple.  The last component is the final value of the caller's
board object. -/
def search_best_move (fuel : Nat) (bd : Board) (depth : Nat) (side_white : Bool)
    (st : SearchState) : Option UiMove × Int × SearchState × Board :=
  let st0 : SearchState := { st with killers := fun _ => [], hist := fun _ => 0 }
  let r := _idLoop fuel bd depth 1 0 none st0
  (match r.1 with
   | some m => _to_ui_tuple (some m)
   | none => none,
   r.2.1, r.2.2.1, r.2.2.2)

/-! ## Concrete positions used by the claims -/

def emptySquares : List (Option Piece) := List.replicate 64 none

def placeAll (ps : List (Nat × Piece)) : List (Option Piece) :=
  ps.foldl (fun sqs x => sqs.set x.1 (some x.2)) emptySquares

def noCastle : CastlingRights := ⟨false, false, false, false⟩

/-- FEN `8/8/8/8/8/8/4r3/4Q3 w - - 0 1`: white queen e1, black rook e2. -/
def qrW : Board :=
  ⟨placeAll [(4, ⟨true, .queen⟩), (12, ⟨false, .rook⟩)], true, noCastle, none⟩

/-- The same placement with Black to move. -/
def qrB : Board :=
  ⟨placeAll [(4, ⟨true, .queen⟩), (12, ⟨false, .rook⟩)], false, noCastle, none⟩

/-- FEN `8/4q3/8/8/8/8/8/4R3 b - - 0 1` (the second position of the repo's
`test_static_eval_symmetry`): black queen e7, white rook e1. -/
def tmB : Board :=
  ⟨placeAll [(52, ⟨false, .queen⟩), (4, ⟨true, .rook⟩)], false, noCastle, none⟩

/-- FEN `k7/8/8/8/8/8/6q1/7K w - - 0 1`: white king h1 in check from the black
queen on g2 (black king a8); the only legal move is Kxg2, a capture. -/
def khW : Board :=
  ⟨placeAll [(56, ⟨false, .king⟩), (14, ⟨false, .queen⟩), (7, ⟨true, .king⟩)],
   true, noCastle, none⟩

/-- FEN `4k3/8/8/3pP3/8/8/8/4K3 w - d6 0 1`: Black just played d7–d5; the
en-passant capture e5xd6 is legal, and White is not in check. -/
def epW : Board :=
  ⟨placeAll [(4, ⟨true, .king⟩), (36, ⟨true, .pawn⟩), (60, ⟨false, .king⟩),
             (35, ⟨false, .pawn⟩)],
   true, noCastle, some 43⟩

/-- FEN `7k/5Q2/6K1/8/8/8/8/8 b - - 0 1`: Black is stalemated. -/
def staleB : Board :=
  ⟨placeAll [(63, ⟨false, .king⟩), (53, ⟨true, .queen⟩), (46, ⟨true, .king⟩)],
   false, noCastle, none⟩

/-- FEN `4k3/P7/8/8/8/8/8/4K3 w - - 0 1`: the white pawn on a7 can promote. -/
def promoW : Board :=
  ⟨placeAll [(48, ⟨true, .pawn⟩), (4, ⟨true, .king⟩), (60, ⟨false, .king⟩)],
   true, noCastle, none⟩

/-! ## Definitions taken from the claims' words (for comparison with the code) -/

def flipPiece (p : Piece) : Piece := ⟨!p.color, p.ptype⟩

/-- The mirror of a position per claim C3: swap the colours of all pieces and
reflect ranks (square XOR 56); side to move, castling rights and the
en-passant square mirror along. -/
def mirrorBoard (bd : Board) : Board :=
  { squares := (List.range 64).map fun sq => (pieceAt bd (sq ^^^ 56)).map flipPiece,
    turn := !bd.turn,
    castling := ⟨bd.castling.bk, bd.castling.bq, bd.castling.wk, bd.castling.wq⟩,
    ep := bd.ep.map fun e => e ^^^ 56 }

/-- The contribution a single occupied square makes to `Board.evaluate`. -/
def contribAt (bd : Board) (sq : Nat) : Int :=
  match pieceAt bd sq with
  | none => 0
  | some p =>
    let val := PIECE_VALUES p.ptype +
      (PST p.ptype).getD (if p.color then sq else _mirror sq) 0
    if p.color then val else -val

/-- Modelled from the spec (amended C7): the evaluator as a closed sum of
material plus piece-square bonus over all squares, White-positive, with no
mobility term. -/
def evalMaterialPst (bd : Board) : Int := ∑ sq ∈ Finset.range 64, contribAt bd sq

/-- Modelled from the spec (claim C7 as stated): material + piece-square bonus
plus a mobility term of +1 centipawn per legal move of the side to move,
signed by the side to move. -/
def specEvalWithMobility (bd : Board) : Int :=
  evalMaterialPst bd +
    (if bd.turn then ((legalMoves bd).length : Int) else -((legalMoves bd).length : Int))

/-- The per-pair contribution used by `Board.evaluate`'s fold. -/
def contribPair (x : Nat × Piece) : Int :=
  let val := PIECE_VALUES x.2.ptype +
    (PST x.2.ptype).getD (if x.2.color then x.1 else _mirror x.1) 0
  if x.2.color then val else -val

/-! ## Helper lemmas -/

theorem evaluate_foldl (bd : Board) :
    Board.evaluate bd = (pieceMap bd).foldl (fun s x => s + contribPair x) 0 := rfl

theorem foldl_add_eq_sum (l : List (Nat × Piece)) (a : Int) :
    l.foldl (fun s x => s + contribPair x) a = a + (l.map contribPair).sum := by
  induction l generalizing a with
  | nil => simp
  | cons x xs ih => simp [ih, add_assoc]

theorem filterMap_contrib (bd : Board) (l : List Nat) :
    ((l.filterMap fun sq => (pieceAt bd sq).map fun p => (sq, p)).map contribPair).sum
      = (l.map fun sq => contribAt bd sq).sum := by
  induction l with
  | nil => rfl
  | cons sq rest ih =>
    cases h : pieceAt bd sq with
    | none => simp [List.filterMap_cons, h, contribAt, ih]
    | some p => simp [List.filterMap_cons, h, contribAt, contribPair, ih]

theorem listSum_range (f : Nat → Int) (n : Nat) :
    ((List.range n).map f).sum = ∑ i ∈ Finset.range n, f i := by
  induction n with
  | zero => rfl
  | succ n ih => simp [List.range_succ, Finset.sum_range_succ, ih]

theorem evaluate_eq_sum (bd : Board) : Board.evaluate bd = evalMaterialPst bd := by
  rw [evaluate_foldl, foldl_add_eq_sum]
  simp only [pieceMap, filterMap_contrib, listSum_range, evalMaterialPst, zero_add]

theorem pieceAt_mirror (bd : Board) (sq : Nat) (h : sq < 64) :
    pieceAt (mirrorBoard bd) sq = (pieceAt bd (sq ^^^ 56)).map flipPiece := by
  simp [pieceAt, mirrorBoard, List.getD_eq_getElem?_getD, List.getElem?_map,
    List.getElem?_range, h]

theorem contrib_mirror (bd : Board) (sq : Nat) (h : sq < 64) :
    contribAt (mirrorBoard bd) sq = -contribAt bd (sq ^^^ 56) := by
  rw [contribAt, pieceAt_mirror bd sq h, contribAt]
  cases hp : pieceAt bd (sq ^^^ 56) with
  | none => simp
  | some p =>
    obtain ⟨c, pt⟩ := p
    cases c <;> simp [flipPiece, _mirror, Nat.xor_cancel_right]

theorem eval_mirror (bd : Board) :
    Board.evaluate bd = -Board.evaluate (mirrorBoard bd) := by
  rw [evaluate_eq_sum, evaluate_eq_sum, evalMaterialPst, evalMaterialPst]
  have h1 : ∑ sq ∈ Finset.range 64, contribAt (mirrorBoard bd) sq
      = ∑ sq ∈ Finset.range 64, -contribAt bd (sq ^^^ 56) :=
    Finset.sum_congr rfl fun sq hsq => contrib_mirror bd sq (Finset.mem_range.mp hsq)
  have h2 : ∑ sq ∈ Finset.range 64, contribAt bd (sq ^^^ 56)
      = ∑ sq ∈ Finset.range 64, contribAt bd sq :=
    Finset.sum_nbij' (fun a => a ^^^ 56) (fun a => a ^^^ 56)
      (by decide) (by decide)
      (fun a _ => Nat.xor_cancel_right 56 a) (fun a _ => Nat.xor_cancel_right 56 a)
      (fun a _ => rfl)
  rw [h1, Finset.sum_neg_distrib, h2, neg_neg]

theorem updateKillers_len (kl : List Move) (m : Move) (h : kl.length ≤ 2) :
    (updateKillers kl m).length ≤ 2 := by
  unfold updateKillers
  split
  · exact h
  · simpa [List.length_take] using min_le_left 2 _

theorem finishNode_killers (bd key : Board) (depth : Nat) (beta : Int)
    (lr : Int × Option Move × Int × SearchState) (k : Nat) :
    ((_finishNode bd key depth beta lr).2).killers k = (lr.2.2.2).killers k := by
  obtain ⟨bestScore, bestMove, alphaF, st2⟩ := lr
  cases bestMove <;> simp only [_finishNode] <;> (repeat' split) <;> rfl

theorem abLoop_inv
    (recur : Board → Nat → Int → Int → SearchState → Int × SearchState)
    (hrec : ∀ b d a bt s, (∀ k, (s.killers k).length ≤ 2) →
      ∀ k, (((recur b d a bt s).2).killers k).length ≤ 2)
    (bd : Board) (depth : Nat) (beta : Int) :
    ∀ (moves : List Move) (idx : Nat) (alpha bestS : Int) (bestM : Option Move)
      (st : SearchState), (∀ k, (st.killers k).length ≤ 2) →
      ∀ k, (((_abLoop recur bd depth beta moves idx alpha bestS bestM st).2.2.2).killers k).length
        ≤ 2 := by
  intro moves
  induction moves with
  | nil =>
    intro idx alpha bestS bestM st hst k
    simpa [_abLoop] using hst k
  | cons m rest ih =>
    intro idx alpha bestS bestM st hst k
    have hr := fun d a bt => hrec (push (clone bd) m) d a bt st hst
    simp only [_abLoop]
    repeat' split
    all_goals
      first
      | exact ih _ _ _ _ _ (hr _ _ _) k
      | (by_cases hk : k = depth
         · simpa [hk] using updateKillers_len _ _ (hr _ _ _ depth)
         · simpa [hk] using hr _ _ _ k)

theorem alphabeta_inv :
    ∀ (fuel : Nat) (bd : Board) (depth : Nat) (alpha beta : Int) (st : SearchState),
      (∀ k, (st.killers k).length ≤ 2) →
      ∀ k, (((_alphabeta fuel bd depth alpha beta st).2).killers k).length ≤ 2 := by
  intro fuel
  induction fuel with
  | zero =>
    intro bd depth alpha beta st hst k
    simpa [_alphabeta] using hst k
  | succ fuel ih =>
    intro bd depth alpha beta st hst k
    have hnullst := fun bdn dn an btn => ih bdn dn an btn st hst
    simp only [_alphabeta]
    split
    · exact hst k
    · split
      · exact hst k
      · by_cases hn : nullMovePruningAttempted bd depth = true
        · simp only [hn, if_true]
          split
          · exact hnullst _ _ _ _ k
          · rw [finishNode_killers]
            exact abLoop_inv (_alphabeta fuel) ih bd depth beta _ _ _ _ _ _
              (hnullst _ _ _ _) k
        · simp only [Bool.not_eq_true] at hn
          simp only [hn, Bool.false_eq_true, if_false]
          rw [finishNode_killers]
          exact abLoop_inv (_alphabeta fuel) ih bd depth beta _ _ _ _ _ _ hst k

theorem idLoop_board (fuel : Nat) (bd : Board) :
    ∀ (rem d : Nat) (score : Int) (best : Option Move) (st : SearchState),
      (_idLoop fuel bd rem d score best st).2.2.2 = bd := by
  intro rem
  induction rem with
  | zero => intro d score best st; rfl
  | succ rem ih =>
    intro d score best st
    simp only [_idLoop]
    exact ih _ _ _ _

/-! ## Claim theorems -/

/-- C1: the claim says the quiescence stand-pat is the side-to-move-relative
static eval and that on `8/8/8/8/8/8/4r3/4Q3` `_quiesce` is positive for White
to move and negative for Black to move.  The code computes
`stand = bd.evaluate()` with no side sign, so with Black to move on that
position `_quiesce` returns `+500` — a positive score, refuting the claim
(with White to move it returns `+385`, which agrees with the claim). -/
theorem C1_quiesce_stand_pat_not_side_relative :
    _quiesce 6 qrB (-INF) INF = 500 ∧ _quiesce 6 qrW (-INF) INF = 385
    ∧ (0 : Int) < 500 := by
  decide

/-- C2: the claim says the stored TT flag is UPPER/LOWER/EXACT according to
the comparison of the best score with the ORIGINAL alpha/beta.  The code
compares against the loop-final alpha instead: on `k7/8/8/8/8/8/6q1/7K w`
(one legal move, Kxg2) at depth 1 with the full window, the node value 10
lies strictly between the original bounds, so the claim requires flag EXACT,
yet the code stores flag UPPER (`TT_UP`). -/
theorem C2_tt_flag_upper_on_exact_node :
    ttGet (_alphabeta 8 khW 1 (-INF) INF emptyState).2.tt (zobrist khW)
      = some ⟨1, TT_UP, 10, some ⟨7, 14, none⟩⟩
    ∧ -INF < (10 : Int) ∧ (10 : Int) < INF ∧ TT_UP ≠ TT_EX := by
  decide

/-- C3 counterexample: the two FENs named by the claim
(`8/8/8/8/8/8/4r3/4Q3 w` and `8/4q3/8/8/8/8/8/4R3 b`) evaluate to 385 and
−390 — not exact negatives of each other (the second FEN is not the
XOR-56 mirror of the first: the mirror would put the queen on e8 and the rook
on e7, not e7 and e1). -/
theorem C3_counterexample :
    Board.evaluate qrW = 385 ∧ Board.evaluate tmB = -390
    ∧ Board.evaluate qrW ≠ -Board.evaluate tmB := by
  decide

/-- C3 (amended): the evaluator IS antisymmetric under the true mirror
(swap colours, reflect ranks via square XOR 56) for every position, and the
true mirror of `8/8/8/8/8/8/4r3/4Q3` evaluates to −385; only the claim's
second FEN (which is not a mirror pair with the first) had to be dropped. -/
theorem C3_eval_mirror_antisymmetric :
    (∀ bd : Board, Board.evaluate bd = -Board.evaluate (mirrorBoard bd))
    ∧ Board.evaluate (mirrorBoard qrW) = -385 :=
  ⟨eval_mirror, by decide⟩

/-- C4 counterexample: on `4k3/8/8/3pP3/8/8/8/4K3 w - d6` a legal en-passant
capture is available and White is not in check, yet the code's null-move
guard (`depth >= 3 and not is_check`) holds at depth 3 — the claim's
"no legal en passant is available" condition is not part of the code. -/
theorem C4_counterexample :
    nullMovePruningAttempted epW 3 = true ∧ hasLegalEnPassant epW = true
    ∧ isCheck epW = false := by
  decide

/-- C4 (amended): null-move pruning is attempted exactly when `depth ≥ 3` and
the side to move is not in check — with no en-passant guard; it recurses with
`depth − 3` and window `(−β, −β + 1)` on the null-pushed position and returns
`β` when the negated result is `≥ β` (stated for a node with no TT hit). -/
theorem C4_null_move_no_ep_guard (fuel : Nat) (bd : Board) (depth : Nat)
    (alpha beta : Int) (st : SearchState)
    (htt : ttGet st.tt (zobrist bd) = none) (h3 : 3 ≤ depth)
    (hchk : isCheck bd = false)
    (hcut : beta ≤ -((_alphabeta fuel (push (clone bd) nullMove) (depth - 3)
      (-beta) (-beta + 1) st).1)) :
    (_alphabeta (fuel + 1) bd depth alpha beta st).1 = beta := by
  have hd0 : depth ≠ 0 := by omega
  have hnull : nullMovePruningAttempted bd depth = true := by
    simp [nullMovePruningAttempted, h3, hchk]
  simp only [_alphabeta, htt, hd0, hnull]
  simp [hcut]

theorem C4_null_move_no_ep_guard_witness :
    (ttGet emptyState.tt (zobrist epW) = none ∧ 3 ≤ 3 ∧ isCheck epW = false
      ∧ (-10 : Int) ≤ -((_alphabeta 5 (push (clone epW) nullMove) (3 - 3)
          (-(-10)) (-(-10) + 1) emptyState).1))
    ∧ (_alphabeta (5 + 1) epW 3 (-20) (-10) emptyState).1 = -10 :=
  ⟨⟨by decide, by decide, by decide, by decide⟩,
   C4_null_move_no_ep_guard 5 epW 3 (-20) (-10) emptyState
     (by decide) (by decide) (by decide) (by decide)⟩

/-- C5 counterexample: on the stalemate `7k/5Q2/6K1/8/8/8/8/8 b` the legal
move list is empty and Black is not in check, yet `_alphabeta` at depth 1
returns `−INF`, not the `0` the claim requires for stalemate. -/
theorem C5_counterexample :
    legalMoves staleB = [] ∧ isCheck staleB = false
    ∧ (_alphabeta 6 staleB 1 (-INF) INF emptyState).1 = -INF := by
  decide

/-- C5 (amended): when the legal-move list is empty the code returns `−INF`
whether or not the side to move is in check — checkmate and stalemate are not
distinguished (stated for depths 1 and 2, where the null-move branch cannot
fire, and a node with no TT hit). -/
theorem C5_no_moves_returns_minus_inf (fuel : Nat) (bd : Board) (depth : Nat)
    (alpha beta : Int) (st : SearchState)
    (hmv : legalMoves bd = []) (htt : ttGet st.tt (zobrist bd) = none)
    (h1 : 1 ≤ depth) (h3 : depth < 3) :
    (_alphabeta (fuel + 1) bd depth alpha beta st).1 = -INF := by
  have hd0 : depth ≠ 0 := by omega
  have hnull : nullMovePruningAttempted bd depth = false := by
    simp only [nullMovePruningAttempted, Bool.and_eq_false_imp]
    intro h
    exfalso
    have := of_decide_eq_true h
    omega
  simp only [_alphabeta, htt, hd0, hnull]
  simp [_ordered_moves, hmv, sortDesc, _abLoop, _finishNode]

theorem C5_no_moves_returns_minus_inf_witness :
    (legalMoves staleB = [] ∧ ttGet emptyState.tt (zobrist staleB) = none
      ∧ 1 ≤ 1 ∧ 1 < 3)
    ∧ (_alphabeta (5 + 1) staleB 1 (-INF) INF emptyState).1 = -INF :=
  ⟨⟨by decide, by decide, by decide, by decide⟩,
   C5_no_moves_returns_minus_inf 5 staleB 1 (-INF) INF emptyState
     (by decide) (by decide) (by decide) (by decide)⟩

/-- C6 counterexample: on `k7/8/8/8/8/8/6q1/7K w` at depth 1 with window
`(−100, −50)` the only legal move Kxg2 — a capture — causes a beta-cutoff and
is recorded in `killers[1]`, refuting "every move recorded in the killer
table is a quiet (non-capture) move". -/
theorem C6_counterexample :
    (_alphabeta 8 khW 1 (-100) (-50) emptyState).2.killers 1 = [⟨7, 14, none⟩]
    ∧ isCapture khW ⟨7, 14, none⟩ = true := by
  decide

/-- C6 (amended): on a beta-cutoff the cutting move is prepended to
`killers[depth]` whether or not it is a capture (the code has no quiet check);
the cap of 2 entries per depth does hold: if every killer list is at most 2
long before a search, it still is afterwards. -/
theorem C6_killers_capped (fuel : Nat) (bd : Board) (depth : Nat)
    (alpha beta : Int) (st : SearchState)
    (hst : ∀ k, (st.killers k).length ≤ 2) (k : Nat) :
    (((_alphabeta fuel bd depth alpha beta st).2).killers k).length ≤ 2 :=
  alphabeta_inv fuel bd depth alpha beta st hst k

theorem C6_killers_capped_witness :
    (∀ k, ((emptyState.killers k)).length ≤ 2)
    ∧ ∀ k, (((_alphabeta 8 khW 1 (-100) (-50) emptyState).2).killers k).length ≤ 2 :=
  ⟨fun _ => by simp [emptyState],
   fun k => C6_killers_capped 8 khW 1 (-100) (-50) emptyState
     (fun _ => by simp [emptyState]) k⟩

/-- C7 counterexample: on `8/8/8/8/8/8/4r3/4Q3 w` the evaluator returns 385,
but material + PST + mobility (White to move has 15 legal moves) would be
400 — the code has no mobility term. -/
theorem C7_counterexample :
    Board.evaluate qrW = 385 ∧ specEvalWithMobility qrW = 400
    ∧ Board.evaluate qrW ≠ specEvalWithMobility qrW := by
  decide

/-- C7 (amended): for every position the evaluator's output equals exactly the
material (P=100, N=320, B=330, R=500, Q=900, K=0) plus the piece-square bonus
(square for White, square XOR 56 for Black), White-positive, summed over the
board — with no mobility term. -/
theorem C7_eval_material_pst_only (bd : Board) :
    Board.evaluate bd = evalMaterialPst bd :=
  evaluate_eq_sum bd

/-- C8: the claim says `make_move` pushes the promotion piece named by the
letter.  The code maps every non-`None` promotion to a QUEEN
(`promotion=chess.QUEEN if promo else None`): pushing the UI move
`((1,0),(0,0),'N')` on `4k3/P7/8/8/8/8/8/4K3 w` yields a queen on a8, not a
knight.  (The emission direction does hold: `_to_ui_tuple` renders a knight
promotion as uppercase `'N'`.) -/
theorem C8_promotion_collapsed_to_queen :
    pieceAt (Board.make_move promoW ((1, 0), (0, 0), some 'N')) 56
      = some ⟨true, PType.queen⟩
    ∧ pieceAt (Board.make_move promoW ((1, 0), (0, 0), some 'N')) 56
      ≠ some ⟨true, PType.knight⟩
    ∧ _to_ui_tuple (some ⟨48, 56, some PType.knight⟩)
      = some ((1, 0), (0, 0), some 'N') := by
  decide

/-- C9: `search_best_move` leaves the caller's board unchanged — the driver
only reads the input position (`clone`, `zobrist`) and every push inside the
search happens on a clone; threading the caller's board object through the
whole driver returns it unmodified. -/
theorem C9_search_preserves_board (fuel : Nat) (bd : Board) (depth : Nat)
    (side_white : Bool) (st : SearchState) :
    (search_best_move fuel bd depth side_white st).2.2.2 = bd := by
  simp only [search_best_move]
  exact idLoop_board fuel bd depth 1 0 none _

/-- C10: `Board.is_in_check(white)` ignores its argument and reports whether
the side currently to move is in check: the two argument values always agree,
the result is `isCheck` of the board, and on `k7/8/8/8/8/8/6q1/7K w` asking
about Black (`false`) still returns `true` (White, the side to move, is in
check) even though Black's king is not attacked. -/
theorem C10_is_in_check_ignores_argument :
    (∀ (bd : Board) (w : Bool), Board.is_in_check bd w = Board.is_in_check bd (!w))
    ∧ (∀ (bd : Board) (w : Bool), Board.is_in_check bd w = isCheck bd)
    ∧ Board.is_in_check khW false = true
    ∧ sideInCheck khW false = false :=
  ⟨fun _ _ => rfl, fun _ _ => rfl, by decide, by decide⟩

end Engine
